import Mathlib

/-!
Verification development for the `web-archive-stream` ZIP transformer
(`src/zip/zip-transformer.ts`).  The transformer and its state are embedded
shallowly: machine integers become `Nat` with explicit truncation inside the
little-endian byte writer, the JS object keyed by entry name becomes an
insertion-ordered association list, a content stream becomes a finite list
of byte chunks, and each emitted record becomes an explicit byte list.
-/

/-- Modelled from the spec: threshold constants and record signatures of the
out-of-scope `constants` module (PKWARE APPNOTE values; the spec fixes the
32-bit magic 0xFFFFFFFF and the 16-bit magic 0xFFFF). -/
def ZIP64_MAGIC : Nat := 0xFFFFFFFF

/-- Modelled from the spec: 16-bit magic threshold. -/
def ZIP64_MAGIC_SHORT : Nat := 0xFFFF

/-- Modelled from the spec: Zip64 extra-field identifier tag. -/
def ZIP64_EXTRA_ID : Nat := 0x0001

/-- Modelled from the spec: local-file-header signature. -/
def SIG_LFH : Nat := 0x04034b50

/-- Modelled from the spec: data-descriptor signature. -/
def SIG_DD : Nat := 0x08074b50

/-- Modelled from the spec: central-file-header signature. -/
def SIG_CFH : Nat := 0x02014b50

/-- Modelled from the spec: end-of-central-directory signature. -/
def SIG_EOCD : Nat := 0x06054b50

/-- Modelled from the spec: Zip64 end-of-central-directory record signature. -/
def SIG_ZIP64_EOCD : Nat := 0x06064b50

/-- Modelled from the spec: Zip64 end-of-central-directory locator signature. -/
def SIG_ZIP64_EOCD_LOC : Nat := 0x07064b50

/-- Modelled from the spec: the out-of-scope `BinaryStream` collaborator's
"write fixed-width integer" primitive, little-endian, truncating to `width`
bytes.  `writeBytes` is plain list append. -/
def writeIntLE (width value : Nat) : List Nat :=
  (List.range width).map fun i => value / 256 ^ i % 256

/-- Modelled from the spec: `BinaryStream.writeInt16`, 2 bytes little-endian. -/
def writeInt16 (value : Nat) : List Nat := writeIntLE 2 value

/-- Modelled from the spec: `BinaryStream.writeInt32`, 4 bytes little-endian. -/
def writeInt32 (value : Nat) : List Nat := writeIntLE 4 value

/-- Modelled from the spec: `BinaryStream.writeBigInt64`, 8 bytes little-endian. -/
def writeBigInt64 (value : Nat) : List Nat := writeIntLE 8 value

/-- Modelled from the spec: one shift-xor round of the rolling CRC-32. -/
def crc32Round (c : Nat) : Nat :=
  if c % 2 = 1 then (c / 2) ^^^ 0xEDB88320 else c / 2

/-- Modelled from the spec: CRC-32 absorption of one byte. -/
def crc32Byte (c b : Nat) : Nat := crc32Round^[8] (c ^^^ (b % 256))

/-- Modelled from the spec: the out-of-scope `Crc32` collaborator; `get` of an
accumulator that was fed `data` returns the standard CRC-32 of `data`. -/
def crc32 (data : List Nat) : Nat :=
  (data.foldl crc32Byte 0xFFFFFFFF) ^^^ 0xFFFFFFFF

/-- Modelled from the spec: the out-of-scope timestamp-to-DOS-date/time
conversion; an abstract function of the timestamp, only the 4-byte width of
the written field matters to the claims (the writer truncates). -/
def getDateTimeDOS (d : Nat) : Nat := d

/-- ASCII whitespace test used to model `String.prototype.trim` at the byte
level (names are modelled as their UTF-8 byte sequences, so `TextEncoder` is
the identity here; multi-byte code points never contain ASCII whitespace
bytes). -/
def isSpaceByte (b : Nat) : Bool := b = 32 || (9 ≤ b && b ≤ 13)

/-- `entry.name.trim()` on the UTF-8 byte sequence of the name. -/
def trimAscii (s : List Nat) : List Nat :=
  ((s.dropWhile isSpaceByte).reverse.dropWhile isSpaceByte).reverse

/-- Total number of bytes in a list of enqueued chunks. -/
def chunksLen (l : List (List Nat)) : Nat := (l.map List.length).sum

/-- Input side of `ZipTransformer.transform`: the incoming logical entry.
`name` is the UTF-8 byte sequence of the provided name, `stream` the finite
list of byte chunks its content source yields (`none` when the entry has no
content source). -/
structure InputEntry where
  name : List Nat
  lastModified : Option Nat
  stream : Option (List (List Nat))
deriving DecidableEq

/-- The `IEntry` record of the source.  The `Crc32` accumulator state is the
list of bytes fed to it so far (`crc.get()` is `crc32 crcBytes`). -/
structure IEntry where
  offset : Nat
  crcBytes : List Nat
  compressedSize : Nat
  size : Nat
  nameBuffer : List Nat
  date : Nat
  extra : List Nat
deriving DecidableEq

/-- The `isZip64` method of `IEntry` (its body; the source's call sites are a
separate matter, see `truthyFnRef`). -/
def IEntry.isZip64 (e : IEntry) : Bool :=
  decide (e.compressedSize > ZIP64_MAGIC) || decide (e.size > ZIP64_MAGIC)

/-- State of `ZipTransformer`.  `entries` is the JS object keyed by entry
name: an insertion-ordered association list (assignment to an existing key
replaces the value in place, a new key is appended). -/
structure ZipTransformer where
  forceZip64 : Bool
  entries : List (List Nat × IEntry)
  offset : Nat
  centralOffset : Nat
  centralSize : Nat
deriving DecidableEq

/-- The constructor of `ZipTransformer`. -/
def ZipTransformer.initial : ZipTransformer :=
  { forceZip64 := false, entries := [], offset := 0, centralOffset := 0, centralSize := 0 }

/-- JS property assignment `this.entries[name] = v`: replace in place when the
key exists, append otherwise. -/
def insertOrReplace (m : List (List Nat × IEntry)) (key : List Nat) (v : IEntry) :
    List (List Nat × IEntry) :=
  match m with
  | [] => [(key, v)]
  | (k, w) :: tl => if k = key then (key, v) :: tl else (k, w) :: insertOrReplace tl key v

/-- JS property read `this.entries[name]`. -/
def lookupEntry (m : List (List Nat × IEntry)) (key : List Nat) : Option IEntry :=
  match m with
  | [] => none
  | (k, v) :: tl => if k = key then some v else lookupEntry tl key

/-- In the source, `this.entry.isZip64` (line 89), `entry.isZip64` (line 112)
and `this.isZip64` (lines 150 and 181) appear without invocation: each is a
function object, and a function object is truthy in JS, so every one of these
conditions holds unconditionally.  This constant embeds that truthiness. -/
def truthyFnRef : Bool := true

/-- `entry.lastModified ? entry.lastModified : new Date()` — JS truthiness:
an absent or zero timestamp falls back to the current time `now`. -/
def entryDate (now : Nat) (lastModified : Option Nat) : Nat :=
  match lastModified with
  | some d => if d = 0 then now else d
  | none => now

/-- `if (entry.stream)`: the chunk list of the content source, empty when the
entry has none. -/
def streamChunks (inp : InputEntry) : List (List Nat) :=
  match inp.stream with
  | some cs => cs
  | none => []

/-- The fresh `IEntry` object built at the top of `transform`: current cursor
as offset, fresh checksum accumulator, zero size counters, trimmed UTF-8
name, resolved date, empty extra field. -/
def freshEntry (now : Nat) (st : ZipTransformer) (inp : InputEntry) : IEntry :=
  { offset := st.offset
    crcBytes := []
    compressedSize := 0
    size := 0
    nameBuffer := trimAscii inp.name
    date := entryDate now inp.lastModified
    extra := [] }

/-- The LOCAL FILE HEADER bytes of `transform` (lines 57-70): signature,
version 0x2D, flags 0x0808, method 0, DOS datetime, three zeroed 4-byte
fields, name length, literal 0 extra length, name bytes, extra bytes. -/
def localHeaderBytes (e : IEntry) : List Nat :=
  writeInt32 SIG_LFH ++ writeInt16 0x002D ++ writeInt16 0x0808 ++ writeInt16 0x0000 ++
  writeInt32 (getDateTimeDOS e.date) ++ writeInt32 0 ++ writeInt32 0 ++ writeInt32 0 ++
  writeInt16 e.nameBuffer.length ++ writeInt16 0 ++ e.nameBuffer ++ e.extra

/-- The FILE DATA relay loop of `transform` (lines 74-84): each chunk is fed
to the checksum accumulator, its length added to both size counters.  (The
chunks themselves are forwarded to the output by `transform`.) -/
def relay (e : IEntry) (cs : List (List Nat)) : IEntry :=
  cs.foldl
    (fun a v =>
      { a with
        crcBytes := a.crcBytes ++ v
        compressedSize := a.compressedSize + v.length
        size := a.size + v.length })
    e

/-- The DATA DESCRIPTOR bytes of `transform` (lines 86-98).  The branch tests
`this.entry.isZip64` — a truthy method reference — so the 8-byte arm is the
one that runs; the untaken 4-byte arm is kept as in the source. -/
def dataDescriptorBytes (e : IEntry) : List Nat :=
  writeInt32 SIG_DD ++ writeInt32 (crc32 e.crcBytes) ++
  (if truthyFnRef then writeBigInt64 e.compressedSize ++ writeBigInt64 e.size
   else writeInt32 e.compressedSize ++ writeInt32 e.size)

/-- `ZipTransformer.transform` (lines 38-101): build and store the fresh
entry, enqueue the local header, relay the content chunks, enqueue the data
descriptor, and advance the cursor by the header length (line 72) plus the
entry's final size and the descriptor length (line 100).  Returns the new
state and the chunks enqueued to the controller, in order. -/
def ZipTransformer.transform (now : Nat) (st : ZipTransformer) (inp : InputEntry) :
    ZipTransformer × List (List Nat) :=
  let e0 := freshEntry now st inp
  let hdr := localHeaderBytes e0
  let cs := streamChunks inp
  let e1 := relay e0 cs
  let dd := dataDescriptorBytes e1
  ({ st with
      entries := insertOrReplace st.entries e0.nameBuffer e1
      offset := st.offset + hdr.length + e1.size + dd.length },
   hdr :: (cs ++ [dd]))

/-- Digit test for ECMAScript array-index keys. -/
def isDigitByte (b : Nat) : Bool := 48 ≤ b && b ≤ 57

/-- Numeric value of a decimal digit string. -/
def decodeDigits (s : List Nat) : Nat := s.foldl (fun a b => a * 10 + (b - 48)) 0

/-- No-leading-zero test for canonical numeric strings. -/
def noLeadingZero : List Nat → Bool
  | b :: _ :: _ => b != 48
  | _ => true

/-- ECMAScript array-index property key: a canonical decimal numeral whose
value is below 2^32 − 1.  `Object.keys` lists such keys first, in ascending
numeric order. -/
def isArrayIndex (s : List Nat) : Bool :=
  !s.isEmpty && s.all isDigitByte && noLeadingZero s &&
    Nat.blt (decodeDigits s) 4294967295

/-- Insertion of a key into a list kept ascending by numeric value. -/
def insertSortedNumeric (k : List Nat) : List (List Nat) → List (List Nat)
  | [] => [k]
  | x :: xs =>
      if decodeDigits k ≤ decodeDigits x then k :: x :: xs
      else x :: insertSortedNumeric k xs

/-- Ascending-numeric-value sort of array-index keys. -/
def sortNumeric (l : List (List Nat)) : List (List Nat) :=
  l.foldr insertSortedNumeric []

/-- `Object.keys` on the `entries` object, per ECMAScript
OrdinaryOwnPropertyKeys: array-index keys in ascending numeric order first,
then the remaining string keys in property-creation order. -/
def objectKeys (m : List (List Nat × IEntry)) : List (List Nat) :=
  sortNumeric ((m.map Prod.fst).filter isArrayIndex) ++
    (m.map Prod.fst).filter fun k => !isArrayIndex k

/-- One CENTRAL DIRECTORY FILE HEADER of `flush` (lines 108-144).  The guard
(line 112) tests the method reference `entry.isZip64` — truthy — so the
sentinel branch always runs: the three 32-bit fields get 0xFFFFFFFF and
`entry.extra` is replaced by the synthesized Zip64 extra field (id, length
24, then 8-byte size, compressed size and offset). -/
def centralRecord (e : IEntry) : List Nat :=
  let escalate := truthyFnRef || decide (e.offset > ZIP64_MAGIC)
  let fileOffset := if escalate then ZIP64_MAGIC else e.offset
  let size := if escalate then ZIP64_MAGIC else e.size
  let compressedSize := if escalate then ZIP64_MAGIC else e.compressedSize
  let extra :=
    if escalate then
      writeInt16 ZIP64_EXTRA_ID ++ writeInt16 24 ++
      writeBigInt64 e.size ++ writeBigInt64 e.compressedSize ++ writeBigInt64 e.offset
    else e.extra
  writeInt32 SIG_CFH ++ writeInt16 0x002D ++ writeInt16 0x002D ++ writeInt16 0x0808 ++
  writeInt16 0x0000 ++ writeInt32 (getDateTimeDOS e.date) ++ writeInt32 (crc32 e.crcBytes) ++
  writeInt32 compressedSize ++ writeInt32 size ++ writeInt16 e.nameBuffer.length ++
  writeInt16 extra.length ++ writeInt16 0x0000 ++ writeInt16 0x0000 ++ writeInt16 0x0000 ++
  writeInt32 0 ++ writeInt32 fileOffset ++ e.nameBuffer ++ extra

/-- One step of the `forEach` over `Object.keys(this.entries)` in `flush`:
look the name up, enqueue its central record and advance the cursor. -/
def centralStep (m : List (List Nat × IEntry)) (acc : Nat × List (List Nat))
    (name : List Nat) : Nat × List (List Nat) :=
  match lookupEntry m name with
  | some e =>
      let r := centralRecord e
      (acc.1 + r.length, acc.2 ++ [r])
  | none => acc

/-- The central-directory records `flush` emits, in `Object.keys` order. -/
def cdRecords (m : List (List Nat × IEntry)) : List (List Nat) :=
  (objectKeys m).filterMap fun k => (lookupEntry m k).map centralRecord

/-- ZIP64 END OF CENTRAL DIRECTORY RECORD bytes (lines 152-163). -/
def zip64EOCDRecordBytes (count centralSize centralOffset : Nat) : List Nat :=
  writeInt32 SIG_ZIP64_EOCD ++ writeBigInt64 44 ++ writeInt16 0x002D ++ writeInt16 0x002D ++
  writeInt32 0 ++ writeInt32 0 ++ writeBigInt64 count ++ writeBigInt64 count ++
  writeBigInt64 centralSize ++ writeBigInt64 centralOffset

/-- ZIP64 END OF CENTRAL DIRECTORY LOCATOR bytes (lines 167-172). -/
def zip64EOCDLocatorBytes (centralOffset centralSize : Nat) : List Nat :=
  writeInt32 SIG_ZIP64_EOCD_LOC ++ writeInt32 0 ++
  writeBigInt64 (centralOffset + centralSize) ++ writeInt32 1

/-- END OF CENTRAL DIRECTORY RECORD bytes (lines 188-197). -/
def eocdRecordBytes (entriesSize centralSize centralOffset : Nat) : List Nat :=
  writeInt32 SIG_EOCD ++ writeInt16 0 ++ writeInt16 0 ++ writeInt16 entriesSize ++
  writeInt16 entriesSize ++ writeInt32 centralSize ++ writeInt32 centralOffset ++ writeInt16 0

/-- `ZipTransformer.flush` (lines 102-200): capture the central-directory
offset, emit one central record per `Object.keys` name while advancing the
cursor, compute the central-directory size, then — since `this.isZip64` at
lines 150 and 181 is a truthy method reference — always emit the Zip64 EOCD
record and locator and write the 0xFFFF / 0xFFFFFFFF sentinels into the
classic EOCD.  The untaken literal-value arms are kept as in the source. -/
def ZipTransformer.flush (st : ZipTransformer) : ZipTransformer × List (List Nat) :=
  let centralOffset := st.offset
  let keys := objectKeys st.entries
  let folded := keys.foldl (centralStep st.entries) (st.offset, [])
  let centralSize := folded.1 - centralOffset
  let count := keys.length
  let zip64Part :=
    if truthyFnRef then
      [zip64EOCDRecordBytes count centralSize centralOffset,
       zip64EOCDLocatorBytes centralOffset centralSize]
    else []
  let entriesSize := if truthyFnRef then ZIP64_MAGIC_SHORT else count
  let centralSizeField := if truthyFnRef then ZIP64_MAGIC else centralSize
  let centralOffsetField := if truthyFnRef then ZIP64_MAGIC else centralOffset
  let eocd := eocdRecordBytes entriesSize centralSizeField centralOffsetField
  ({ st with
      offset := folded.1 + chunksLen zip64Part + eocd.length
      centralOffset := centralOffset
      centralSize := centralSize },
   folded.2 ++ zip64Part ++ [eocd])

/-- One `transform` call within an archive run, accumulating the enqueued
chunks. -/
def archiveStep (now : Nat) (acc : ZipTransformer × List (List Nat)) (inp : InputEntry) :
    ZipTransformer × List (List Nat) :=
  let r := acc.1.transform now inp
  (r.1, acc.2 ++ r.2)

/-- One whole archive run: fold `transform` over the inputs from the freshly
constructed transformer, then `flush`; returns the final state and every
chunk enqueued to the output, in order. -/
def runArchive (now : Nat) (inputs : List InputEntry) : ZipTransformer × List (List Nat) :=
  let folded := inputs.foldl (archiveStep now) (ZipTransformer.initial, [])
  let fl := folded.1.flush
  (fl.1, folded.2 ++ fl.2)

/-- The relay loop in one equation: the accumulator is fed exactly the
concatenation of the chunks and both size counters grow by the total chunk
length. -/
theorem relay_eq (cs : List (List Nat)) (e : IEntry) :
    relay e cs =
      { e with
        crcBytes := e.crcBytes ++ cs.flatten
        compressedSize := e.compressedSize + chunksLen cs
        size := e.size + chunksLen cs } := by
  induction cs generalizing e with
  | nil => simp [relay, chunksLen]
  | cons c cs ih =>
      have h1 : relay e (c :: cs) =
          relay { e with
                  crcBytes := e.crcBytes ++ c
                  compressedSize := e.compressedSize + c.length
                  size := e.size + c.length } cs := by
        simp [relay]
      rw [h1, ih]
      simp [chunksLen, List.append_assoc, Nat.add_assoc]

/-- Reading back the key just assigned returns the assigned value. -/
theorem lookupEntry_insertOrReplace_self (m : List (List Nat × IEntry))
    (key : List Nat) (v : IEntry) :
    lookupEntry (insertOrReplace m key v) key = some v := by
  induction m with
  | nil => simp [insertOrReplace, lookupEntry]
  | cons p tl ih =>
      by_cases h : p.1 = key
      · simp [insertOrReplace, lookupEntry, h]
      · simp [insertOrReplace, lookupEntry, h, ih]

/-- The `forEach` fold of `flush` in one equation: the cursor advances by the
total length of the emitted central records and the records accumulate in
key order. -/
theorem centralStep_foldl (m : List (List Nat × IEntry)) (keys : List (List Nat)) :
    ∀ (o : Nat) (acc : List (List Nat)),
      keys.foldl (centralStep m) (o, acc) =
        (o + chunksLen (keys.filterMap fun k => (lookupEntry m k).map centralRecord),
         acc ++ keys.filterMap fun k => (lookupEntry m k).map centralRecord) := by
  induction keys with
  | nil => intro o acc; simp [chunksLen]
  | cons k ks ih =>
      intro o acc
      cases hk : lookupEntry m k with
      | none => simp [centralStep, hk, ih, List.filterMap_cons]
      | some e =>
          simp [centralStep, hk, ih, List.filterMap_cons, chunksLen, Nat.add_assoc]

/-- With pairwise-distinct keys, looking each of a map's own keys back up
yields the entries in their stored order. -/
theorem filterMap_lookup_self (m : List (List Nat × IEntry))
    (h : (m.map Prod.fst).Nodup) :
    ((m.map Prod.fst).filterMap fun k => (lookupEntry m k).map centralRecord) =
      m.map fun p => centralRecord p.2 := by
  induction m with
  | nil => rfl
  | cons p tl ih =>
      simp only [List.map_cons, List.nodup_cons] at h
      have hhead : lookupEntry (p :: tl) p.1 = some p.2 := by
        simp [lookupEntry]
      have hcongr :
          ((tl.map Prod.fst).filterMap fun k => (lookupEntry (p :: tl) k).map centralRecord) =
            (tl.map Prod.fst).filterMap fun k => (lookupEntry tl k).map centralRecord := by
        apply List.filterMap_congr
        intro k hk
        have hne : p.1 ≠ k := by
          intro he; exact h.1 (he ▸ hk)
        simp [lookupEntry, hne]
      simp only [List.map_cons, List.filterMap_cons, hhead, Option.map_some]
      rw [hcongr, ih h.2]
      simp

/-- When no key is an ECMAScript array index, `Object.keys` is exactly the
property-creation order. -/
theorem objectKeys_of_no_arrayIndex (m : List (List Nat × IEntry))
    (h : ∀ k ∈ m.map Prod.fst, isArrayIndex k = false) :
    objectKeys m = m.map Prod.fst := by
  have h1 : (m.map Prod.fst).filter isArrayIndex = [] := by
    rw [List.filter_eq_nil_iff]
    intro k hk
    simp [h k hk]
  have h2 : ((m.map Prod.fst).filter fun k => !isArrayIndex k) = m.map Prod.fst := by
    rw [List.filter_eq_self]
    intro k hk
    simp [h k hk]
  simp [objectKeys, h1, h2, sortNumeric]

/-- The cursor advance of `transform` equals the total length of the chunks
it enqueues. -/
theorem transform_offset (now : Nat) (st : ZipTransformer) (inp : InputEntry) :
    (st.transform now inp).1.offset = st.offset + chunksLen (st.transform now inp).2 := by
  have hsize : (relay (freshEntry now st inp) (streamChunks inp)).size =
      chunksLen (streamChunks inp) := by
    rw [relay_eq]; simp [freshEntry]
  simp only [ZipTransformer.transform, chunksLen, List.map_cons, List.map_append,
    List.sum_cons, List.sum_append, List.map_cons, List.sum_cons]
  simp only [chunksLen] at hsize
  simp [hsize]
  omega

/-- The cursor advance of `flush` equals the total length of the chunks it
enqueues. -/
theorem flush_offset (st : ZipTransformer) :
    st.flush.1.offset = st.offset + chunksLen st.flush.2 := by
  simp only [ZipTransformer.flush, centralStep_foldl, List.nil_append]
  simp [chunksLen, truthyFnRef]
  omega

/-- `chunksLen` distributes over concatenation of chunk lists. -/
theorem chunksLen_append (a b : List (List Nat)) :
    chunksLen (a ++ b) = chunksLen a + chunksLen b := by
  simp [chunksLen]

/-- A fixed-width write is that many bytes long. -/
theorem writeIntLE_length (w v : Nat) : (writeIntLE w v).length = w := by
  simp [writeIntLE]

/-- The cursor stays equal to the total bytes enqueued across the transform
fold of an archive run. -/
theorem archiveFold_offset (now : Nat) (inputs : List InputEntry) :
    ∀ acc : ZipTransformer × List (List Nat), acc.1.offset = chunksLen acc.2 →
      (inputs.foldl (archiveStep now) acc).1.offset =
        chunksLen (inputs.foldl (archiveStep now) acc).2 := by
  induction inputs with
  | nil => intro acc h; exact h
  | cons i is ih =>
      intro acc h
      apply ih
      simp only [archiveStep]
      rw [transform_offset, h, chunksLen_append]

/-- The spec's concrete scenario: one entry named `"x.txt"` (UTF-8 bytes)
whose content source yields the single chunk `"AB"` (bytes 65, 66). -/
def xtxtInput : InputEntry :=
  { name := [120, 46, 116, 120, 116], lastModified := none, stream := some [[65, 66]] }

/-- C1: the claim says the data descriptor's size fields are 4 bytes wide
when the entry's final sizes stay at or below 0xFFFFFFFF.  The code instead
tests the method reference `this.entry.isZip64` (truthy), so even for the
2-byte entry `"x.txt"`/`"AB"` the descriptor carries two 8-byte size fields
(24 bytes in all, signature + checksum + 8 + 8), not two 4-byte ones. -/
theorem C1_descriptor_always_wide :
    (ZipTransformer.initial.transform 0 xtxtInput).2.getLast? =
      some (writeInt32 SIG_DD ++ writeInt32 (crc32 [65, 66]) ++
        writeBigInt64 2 ++ writeBigInt64 2)
    ∧ ((ZipTransformer.initial.transform 0 xtxtInput).2.getLast?.map List.length) = some 24 := by
  constructor
  · decide
  · decide

/-- C2: the claim says a small entry's central-directory record carries the
literal sizes and offset and no Zip64 extra field.  Because line 112 tests
the truthy method reference `entry.isZip64`, the record for the 2-byte entry
(sizes 2, offset 0) instead holds the 0xFFFFFFFF sentinel in the
compressed-size, size and offset fields, declares a 28-byte extra field, and
is 79 = 46 + 5 + 28 bytes long rather than 51. -/
theorem C2_central_record_always_sentinel :
    (((lookupEntry (ZipTransformer.initial.transform 0 xtxtInput).1.entries
        [120, 46, 116, 120, 116]).map centralRecord).map List.length = some 79)
    ∧ (((lookupEntry (ZipTransformer.initial.transform 0 xtxtInput).1.entries
        [120, 46, 116, 120, 116]).map centralRecord).map fun l => (l.drop 20).take 8) =
        some [255, 255, 255, 255, 255, 255, 255, 255]
    ∧ (((lookupEntry (ZipTransformer.initial.transform 0 xtxtInput).1.entries
        [120, 46, 116, 120, 116]).map centralRecord).map fun l => (l.drop 30).take 2) =
        some [28, 0]
    ∧ (((lookupEntry (ZipTransformer.initial.transform 0 xtxtInput).1.entries
        [120, 46, 116, 120, 116]).map centralRecord).map fun l => (l.drop 42).take 4) =
        some [255, 255, 255, 255] := by
  refine ⟨by decide, by decide, by decide, by decide⟩

/-- C3: the claim says a one-small-entry archive gets a classic EOCD with
literal entry count 1 and literal offsets, preceded by no Zip64 records.
Because lines 150 and 181 test the truthy method reference `this.isZip64`,
`flush` always emits the Zip64 EOCD record and locator (so four chunks, not
two) and writes the 0xFFFF / 0xFFFFFFFF sentinels into the classic EOCD;
the literal count 1 only appears inside the Zip64 EOCD record. -/
theorem C3_eocd_always_escalated :
    ((ZipTransformer.initial.transform 0 xtxtInput).1.flush).2.length = 4
    ∧ ((ZipTransformer.initial.transform 0 xtxtInput).1.flush).2[1]? =
        some (zip64EOCDRecordBytes 1 79 61)
    ∧ ((ZipTransformer.initial.transform 0 xtxtInput).1.flush).2.getLast? =
        some (eocdRecordBytes ZIP64_MAGIC_SHORT ZIP64_MAGIC ZIP64_MAGIC) := by
  refine ⟨by decide, by decide, by decide⟩

/-- C4 counterexample: with entries created in the order `"1"` then `"0"`,
`Object.keys` lists the array-index keys in ascending numeric order, so the
first central-directory record `flush` emits does not describe the first
entry created — the claim's "for every choice of entry names" fails. -/
theorem C4_counterexample :
    (((ZipTransformer.initial.transform 0
        { name := [49], lastModified := none, stream := none }).1.transform 0
        { name := [48], lastModified := none, stream := none }).1.entries.map Prod.fst =
      [[49], [48]])
    ∧ (((ZipTransformer.initial.transform 0
        { name := [49], lastModified := none, stream := none }).1.transform 0
        { name := [48], lastModified := none, stream := none }).1.flush.2.head? ≠
      ((((ZipTransformer.initial.transform 0
        { name := [49], lastModified := none, stream := none }).1.transform 0
        { name := [48], lastModified := none, stream := none }).1.entries.head?.map
          fun p => centralRecord p.2))) := by
  refine ⟨by decide, by decide⟩

/-- C4 (amended): when the stored entry names are pairwise distinct and none
is an ECMAScript array-index string, the central-directory records emitted at
finalize are exactly the entries' records in creation order — the i-th
record describes the i-th entry created. -/
theorem C4_creation_order_directory (st : ZipTransformer)
    (h1 : (st.entries.map Prod.fst).Nodup)
    (h2 : ∀ k ∈ st.entries.map Prod.fst, isArrayIndex k = false) :
    cdRecords st.entries = st.entries.map (fun p => centralRecord p.2)
    ∧ st.flush.2.take st.entries.length = st.entries.map (fun p => centralRecord p.2) := by
  have hk : objectKeys st.entries = st.entries.map Prod.fst :=
    objectKeys_of_no_arrayIndex st.entries h2
  have hcd : cdRecords st.entries = st.entries.map (fun p => centralRecord p.2) := by
    rw [cdRecords, hk, filterMap_lookup_self st.entries h1]
  refine ⟨hcd, ?_⟩
  have hout : ((objectKeys st.entries).filterMap
      fun k => (lookupEntry st.entries k).map centralRecord) =
      st.entries.map (fun p => centralRecord p.2) := hcd
  simp only [ZipTransformer.flush, centralStep_foldl, List.nil_append, hout]
  rw [List.append_assoc,
    show st.entries.length = (st.entries.map fun p => centralRecord p.2).length by
      rw [List.length_map],
    List.take_left]

/-- Witness for the amended C4 on a concrete archive of two distinct
non-numeric names `"a"` and `"b"`. -/
theorem C4_creation_order_directory_witness :
    ((((ZipTransformer.initial.transform 0
        { name := [97], lastModified := none, stream := none }).1.transform 0
        { name := [98], lastModified := none, stream := none }).1.entries.map Prod.fst).Nodup
    ∧ (∀ k ∈ ((ZipTransformer.initial.transform 0
        { name := [97], lastModified := none, stream := none }).1.transform 0
        { name := [98], lastModified := none, stream := none }).1.entries.map Prod.fst,
          isArrayIndex k = false))
    ∧ cdRecords (((ZipTransformer.initial.transform 0
        { name := [97], lastModified := none, stream := none }).1.transform 0
        { name := [98], lastModified := none, stream := none }).1.entries) =
      (((ZipTransformer.initial.transform 0
        { name := [97], lastModified := none, stream := none }).1.transform 0
        { name := [98], lastModified := none, stream := none }).1.entries.map
          fun p => centralRecord p.2) := by
  refine ⟨⟨by decide, by decide⟩, ?_⟩
  exact (C4_creation_order_directory _ (by decide) (by decide)).1

/-- C5: duplicate trimmed names — the second `"a"` overwrites the first in
the lookup structure (one binding, holding the second entry: offset 56, the
byte after the first entry's header + content + descriptor, and size 2 from
content `[2,3]`), the first entry's three output chunks were already
enqueued, and finalize emits exactly one central-directory record.  The
claim's last clause fails, however: the classic EOCD count field holds the
sentinel 0xFFFF (bytes `[255, 255]`), not the literal count 1, because
`this.isZip64` at line 181 is a truthy method reference. -/
theorem C5_duplicate_name_eval :
    ((ZipTransformer.initial.transform 0
        { name := [97], lastModified := none, stream := some [[1]] }).1.transform 0
        { name := [97], lastModified := none, stream := some [[2, 3]] }).1.entries.length = 1
    ∧ (ZipTransformer.initial.transform 0
        { name := [97], lastModified := none, stream := some [[1]] }).2.length = 3
    ∧ (lookupEntry ((ZipTransformer.initial.transform 0
        { name := [97], lastModified := none, stream := some [[1]] }).1.transform 0
        { name := [97], lastModified := none, stream := some [[2, 3]] }).1.entries
        [97]).map IEntry.offset =
      some (chunksLen (ZipTransformer.initial.transform 0
        { name := [97], lastModified := none, stream := some [[1]] }).2)
    ∧ (lookupEntry ((ZipTransformer.initial.transform 0
        { name := [97], lastModified := none, stream := some [[1]] }).1.transform 0
        { name := [97], lastModified := none, stream := some [[2, 3]] }).1.entries
        [97]).map IEntry.size = some 2
    ∧ (cdRecords ((ZipTransformer.initial.transform 0
        { name := [97], lastModified := none, stream := some [[1]] }).1.transform 0
        { name := [97], lastModified := none, stream := some [[2, 3]] }).1.entries).length = 1
    ∧ (((ZipTransformer.initial.transform 0
        { name := [97], lastModified := none, stream := some [[1]] }).1.transform 0
        { name := [97], lastModified := none, stream := some [[2, 3]] }).1.flush.2.getLast?.map
          fun r => (r.drop 8).take 2) = some [255, 255] := by
  refine ⟨by decide, by decide, by decide, by decide, by decide, by decide⟩

/-- C6: during content relay every chunk is fed to the checksum accumulator
(the accumulator ends up holding exactly the concatenation of the chunks, in
order), each chunk's length is added to both counters — which therefore end
equal to each other and to the total content length — and the chunks are
forwarded to the output unmodified, in arrival order, between the local
header and the data descriptor; an entry without a content source relays
nothing and keeps zero sizes. -/
theorem C6_relay_accumulates (now : Nat) (st : ZipTransformer) (inp : InputEntry) :
    (relay (freshEntry now st inp) (streamChunks inp)).crcBytes = (streamChunks inp).flatten
    ∧ (relay (freshEntry now st inp) (streamChunks inp)).compressedSize =
        chunksLen (streamChunks inp)
    ∧ (relay (freshEntry now st inp) (streamChunks inp)).size = chunksLen (streamChunks inp)
    ∧ (st.transform now inp).2 =
        localHeaderBytes (freshEntry now st inp) ::
          (streamChunks inp ++
            [dataDescriptorBytes (relay (freshEntry now st inp) (streamChunks inp))])
    ∧ lookupEntry (st.transform now inp).1.entries (trimAscii inp.name) =
        some (relay (freshEntry now st inp) (streamChunks inp))
    ∧ (inp.stream = none →
        streamChunks inp = [] ∧
          relay (freshEntry now st inp) (streamChunks inp) = freshEntry now st inp) := by
  refine ⟨?_, ?_, ?_, ?_, ?_, ?_⟩
  · rw [relay_eq]; simp [freshEntry]
  · rw [relay_eq]; simp [freshEntry]
  · rw [relay_eq]; simp [freshEntry]
  · simp [ZipTransformer.transform]
  · have : (freshEntry now st inp).nameBuffer = trimAscii inp.name := rfl
    simp only [ZipTransformer.transform]
    rw [← this]
    exact lookupEntry_insertOrReplace_self st.entries _ _
  · intro h
    have hcs : streamChunks inp = [] := by simp [streamChunks, h]
    rw [hcs]
    exact ⟨rfl, rfl⟩

/-- Witness for C6's no-content-source clause at a concrete entry. -/
theorem C6_relay_accumulates_witness :
    ({ name := [97], lastModified := none, stream := none } : InputEntry).stream = none
    ∧ (streamChunks { name := [97], lastModified := none, stream := none } = []
      ∧ relay (freshEntry 0 ZipTransformer.initial
            { name := [97], lastModified := none, stream := none })
          (streamChunks { name := [97], lastModified := none, stream := none }) =
        freshEntry 0 ZipTransformer.initial
          { name := [97], lastModified := none, stream := none }) :=
  ⟨rfl, (C6_relay_accumulates 0 ZipTransformer.initial
    { name := [97], lastModified := none, stream := none }).2.2.2.2.2 rfl⟩

/-- C7: at finalize `centralDirectoryOffset` is the cursor value at the start
of `flush` (immediately after the last entry's data descriptor) and
`centralDirectorySize` is the total byte length of the central-directory
records emitted. -/
theorem C7_central_directory_bookkeeping (st : ZipTransformer) :
    st.flush.1.centralOffset = st.offset
    ∧ st.flush.1.centralSize = chunksLen (cdRecords st.entries) := by
  constructor
  · rfl
  · simp only [ZipTransformer.flush, centralStep_foldl, List.nil_append, cdRecords]
    omega

/-- C8: for an entry to which Zip64 escalation applies (its sizes or offset
exceed 0xFFFFFFFF), the central-directory record carries the 0xFFFFFFFF
sentinel in its 32-bit compressed-size, size and offset fields, declares a
28-byte extra field, and appends a Zip64 extra field holding the identifier
tag, a 16-bit payload length of 24, then the true 8-byte size, compressed
size and offset, in that order. -/
theorem C8_zip64_escalated_record (e : IEntry)
    (h : e.isZip64 = true ∨ e.offset > ZIP64_MAGIC) :
    centralRecord e =
      writeInt32 SIG_CFH ++ writeInt16 0x002D ++ writeInt16 0x002D ++ writeInt16 0x0808 ++
      writeInt16 0x0000 ++ writeInt32 (getDateTimeDOS e.date) ++
      writeInt32 (crc32 e.crcBytes) ++ writeInt32 ZIP64_MAGIC ++ writeInt32 ZIP64_MAGIC ++
      writeInt16 e.nameBuffer.length ++ writeInt16 28 ++ writeInt16 0x0000 ++
      writeInt16 0x0000 ++ writeInt16 0x0000 ++ writeInt32 0 ++ writeInt32 ZIP64_MAGIC ++
      e.nameBuffer ++
      (writeInt16 ZIP64_EXTRA_ID ++ writeInt16 24 ++ writeBigInt64 e.size ++
        writeBigInt64 e.compressedSize ++ writeBigInt64 e.offset) := by
  simp only [centralRecord, truthyFnRef, Bool.true_or, if_pos, Bool.or_eq_true]
  simp [writeInt16, writeBigInt64, writeIntLE_length]

/-- Witness for C8 at a concrete entry of size 2^32 (one byte above the
32-bit magic threshold). -/
theorem C8_zip64_escalated_record_witness :
    ((⟨0, [], 0, 4294967296, [120], 0, []⟩ : IEntry).isZip64 = true
      ∨ (⟨0, [], 0, 4294967296, [120], 0, []⟩ : IEntry).offset > ZIP64_MAGIC)
    ∧ centralRecord ⟨0, [], 0, 4294967296, [120], 0, []⟩ =
      writeInt32 SIG_CFH ++ writeInt16 0x002D ++ writeInt16 0x002D ++ writeInt16 0x0808 ++
      writeInt16 0x0000 ++ writeInt32 (getDateTimeDOS 0) ++ writeInt32 (crc32 []) ++
      writeInt32 ZIP64_MAGIC ++ writeInt32 ZIP64_MAGIC ++ writeInt16 1 ++ writeInt16 28 ++
      writeInt16 0x0000 ++ writeInt16 0x0000 ++ writeInt16 0x0000 ++ writeInt32 0 ++
      writeInt32 ZIP64_MAGIC ++ [120] ++
      (writeInt16 ZIP64_EXTRA_ID ++ writeInt16 24 ++ writeBigInt64 4294967296 ++
        writeBigInt64 0 ++ writeBigInt64 0) :=
  ⟨Or.inl (by decide),
    C8_zip64_escalated_record ⟨0, [], 0, 4294967296, [120], 0, []⟩ (Or.inl (by decide))⟩

/-- C9: the local file header is, in fixed order, the signature, version
0x002D, flags 0x0808, method 0, a 4-byte DOS date/time, three zeroed 4-byte
fields, the 2-byte name length, a 2-byte extra length of 0, then the raw
trimmed UTF-8 name bytes; it is the first chunk `transform` enqueues, the
entry's recorded offset is the cursor before it, and the cursor advance is
exactly the header length (plus, later in the same call, the relayed size
and the descriptor length). -/
theorem C9_local_header_layout (now : Nat) (st : ZipTransformer) (inp : InputEntry) :
    localHeaderBytes (freshEntry now st inp) =
      writeInt32 SIG_LFH ++ writeInt16 0x002D ++ writeInt16 0x0808 ++ writeInt16 0x0000 ++
      writeInt32 (getDateTimeDOS (entryDate now inp.lastModified)) ++ writeInt32 0 ++
      writeInt32 0 ++ writeInt32 0 ++ writeInt16 (trimAscii inp.name).length ++
      writeInt16 0 ++ trimAscii inp.name
    ∧ (st.transform now inp).2.head? = some (localHeaderBytes (freshEntry now st inp))
    ∧ (freshEntry now st inp).offset = st.offset
    ∧ (lookupEntry (st.transform now inp).1.entries (trimAscii inp.name)).map
        IEntry.offset = some st.offset
    ∧ (st.transform now inp).1.offset =
        st.offset + (localHeaderBytes (freshEntry now st inp)).length +
          chunksLen (streamChunks inp) +
          (dataDescriptorBytes (relay (freshEntry now st inp) (streamChunks inp))).length := by
  refine ⟨?_, ?_, ?_, ?_, ?_⟩
  · simp [localHeaderBytes, freshEntry]
  · simp [ZipTransformer.transform]
  · rfl
  · have hkey : (freshEntry now st inp).nameBuffer = trimAscii inp.name := rfl
    simp only [ZipTransformer.transform]
    rw [← hkey, lookupEntry_insertOrReplace_self st.entries _ _]
    rw [relay_eq]
    rfl
  · have hsize : (relay (freshEntry now st inp) (streamChunks inp)).size =
        chunksLen (streamChunks inp) := by
      rw [relay_eq]; simp [freshEntry]
    simp only [ZipTransformer.transform]
    rw [hsize]

/-- C10: the cursor `offset` always equals the total byte count of the chunks
enqueued so far — each `transform` call and the `flush` call advance it by
exactly the bytes they enqueue (so it never decreases), and over a whole
archive run from the fresh transformer the final cursor equals the total
output length. -/
theorem C10_cursor_accounts_all_output :
    (∀ (now : Nat) (st : ZipTransformer) (inp : InputEntry),
      (st.transform now inp).1.offset = st.offset + chunksLen (st.transform now inp).2
      ∧ st.offset ≤ (st.transform now inp).1.offset)
    ∧ (∀ st : ZipTransformer,
      st.flush.1.offset = st.offset + chunksLen st.flush.2
      ∧ st.offset ≤ st.flush.1.offset)
    ∧ (∀ (now : Nat) (inputs : List InputEntry),
      (runArchive now inputs).1.offset = chunksLen (runArchive now inputs).2) := by
  refine ⟨fun now st inp => ⟨transform_offset now st inp, ?_⟩,
    fun st => ⟨flush_offset st, ?_⟩, fun now inputs => ?_⟩
  · rw [transform_offset]; exact Nat.le_add_right _ _
  · rw [flush_offset]; exact Nat.le_add_right _ _
  · have hfold := archiveFold_offset now inputs (ZipTransformer.initial, []) rfl
    simp only [runArchive]
    rw [flush_offset, hfold, chunksLen_append]
